import Mathlib

set_option maxHeartbeats 1000000

/-!
Verification of the concurrency, geometry and setup logic of the vs-mlrt
TensorRT VapourSynth filter (`src/vstrt/vs_tensorrt.cpp`).

The development shallowly embeds four parts of the source:

* the `TicketSemaphore` (lines 25-48) together with the free-list pool of
  `vsTrtData::acquire` / `vsTrtData::release` (lines 68-86), as a labelled
  transition system `Step` over `PoolState`, with one `Phase` per concurrent
  frame request;
* the per-request scale-factor derivation of `vsTrtGetFrame`
  (lines 152-161), as `resolveScales`;
* the ready-phase control flow of `vsTrtGetFrame` (lines 137-204), as the
  event-trace generator `vsTrtGetFrameReady`;
* the `vsTrtCreate` setup orchestration (lines 225-378), as `vsTrtCreate`
  over parsed arguments plus oracles for the external collaborators
  (CUDA device count, engine loader, instance builder).
-/

/-! ### Part A: ticket semaphore and instance pool (lines 25-87)

Each concurrent frame request runs `vsTrtData::acquire`, uses the instance,
and then runs `vsTrtData::release`.  A request's progress through that code
is one of the following phases:

* `idle`      - has not called `acquire` yet;
* `waiting`   - executed `ticket.fetch_add(1)` (line 34) obtaining ticket
                `tk`, but has not yet observed `tk < current` (line 37);
* `admitted`  - returned from `semaphore.acquire()` but has not yet popped
                the free-list (lines 73-75);
* `holding`   - popped index `idx` from the free-list (`tickets.back()`,
                `tickets.pop_back()`), running inference on instance `idx`;
* `pushed`    - pushed `idx` back (line 83) but not yet executed
                `semaphore.release()` (line 85);
* `done`      - executed `semaphore.release()` (`current.fetch_add(1)`).
-/

inductive Phase where
  | idle
  | waiting (tk : Nat)
  | admitted (tk : Nat)
  | holding (tk : Nat) (idx : Int)
  | pushed (tk : Nat)
  | done (tk : Nat)
deriving DecidableEq, Repr

/-- The ticket a request has drawn from `TicketSemaphore::ticket`, if any. -/
def Phase.issuedTk : Phase → Option Nat
  | .idle => none
  | .waiting tk => some tk
  | .admitted tk => some tk
  | .holding tk _ => some tk
  | .pushed tk => some tk
  | .done tk => some tk

/-- The ticket of a request that has passed the semaphore (returned from
`semaphore.acquire()`), if any. -/
def Phase.pastTk : Phase → Option Nat
  | .admitted tk => some tk
  | .holding tk _ => some tk
  | .pushed tk => some tk
  | .done tk => some tk
  | _ => none

/-- The free-list index currently checked out by the request, if any. -/
def Phase.heldIdx : Phase → Option Int
  | .holding _ idx => some idx
  | _ => none

/-- A request that is past the semaphore and has not yet executed
`semaphore.release()`: an admitted holder of one of the `N` slots. -/
def Phase.isInFlight : Phase → Bool
  | .admitted _ => true
  | .holding _ _ => true
  | .pushed _ => true
  | _ => false

/-- A request currently holding a popped free-list index. -/
def Phase.isHolding : Phase → Bool
  | .holding _ _ => true
  | _ => false

/-- A request that has completed `semaphore.release()`. -/
def Phase.isDone : Phase → Bool
  | .done _ => true
  | _ => false

/-- Global state of `TicketSemaphore` plus the `vsTrtData` free-list, with
the phases of `m` (potential) concurrent frame requests.

* `ticket`  models `TicketSemaphore::ticket` (next ticket, line 26);
* `current` models `TicketSemaphore::current` (admission threshold, line 27;
  an `intptr_t`, hence `Int`);
* `tickets` models `std::vector<int> vsTrtData::tickets` (line 64), last
  element = `tickets.back()`;
* `threads` holds the phase of each request (mutex-protected free-list
  operations are single atomic steps). -/
structure PoolState where
  ticket : Nat
  current : Int
  tickets : List Int
  threads : List Phase
deriving DecidableEq, Repr

/-- Initial state built by `vsTrtCreate` lines 364-368:
`semaphore.init(num_streams)` sets `current := n` (`ticket` is
zero-initialised), and the loop pushes indices `0, ..., n-1` in order. -/
def PoolState.init (n m : Nat) : PoolState where
  ticket := 0
  current := n
  tickets := (List.range n).map Int.ofNat
  threads := List.replicate m Phase.idle

/-- All tickets drawn so far. -/
def PoolState.issued (s : PoolState) : List Nat :=
  s.threads.filterMap Phase.issuedTk

/-- Tickets of requests that have passed the semaphore. -/
def PoolState.past (s : PoolState) : List Nat :=
  s.threads.filterMap Phase.pastTk

/-- Free-list indices currently checked out. -/
def PoolState.held (s : PoolState) : List Int :=
  s.threads.filterMap Phase.heldIdx

/-- One interleaving step of the pool protocol.  Each constructor moves one
request (singled out positionally as `l ++ p :: r`) one step through
`vsTrtData::acquire` / `release`:

* `startAcquire`: `ticket.fetch_add(1)` (line 34);
* `grant`: the wait loop of `semaphore.acquire()` observes `tk < current`
  (line 37) and returns;
* `pop`: under `instances_lock`, `ticket = tickets.back(); tickets.pop_back()`
  (lines 73-75) - only possible when the free-list is nonempty;
* `push`: under `instances_lock`, `tickets.push_back(ticket)` (line 83);
* `semRelease`: `current.fetch_add(1)` (line 45). -/
inductive Step : PoolState → PoolState → Prop where
  | startAcquire (s : PoolState) (l r : List Phase)
      (hthreads : s.threads = l ++ Phase.idle :: r) :
      Step s { s with ticket := s.ticket + 1,
                      threads := l ++ Phase.waiting s.ticket :: r }
  | grant (s : PoolState) (l r : List Phase) (tk : Nat)
      (hthreads : s.threads = l ++ Phase.waiting tk :: r)
      (hlt : (tk : Int) < s.current) :
      Step s { s with threads := l ++ Phase.admitted tk :: r }
  | pop (s : PoolState) (l r : List Phase) (tk : Nat) (ts : List Int) (idx : Int)
      (hthreads : s.threads = l ++ Phase.admitted tk :: r)
      (htickets : s.tickets = ts ++ [idx]) :
      Step s { s with tickets := ts,
                      threads := l ++ Phase.holding tk idx :: r }
  | push (s : PoolState) (l r : List Phase) (tk : Nat) (idx : Int)
      (hthreads : s.threads = l ++ Phase.holding tk idx :: r) :
      Step s { s with tickets := s.tickets ++ [idx],
                      threads := l ++ Phase.pushed tk :: r }
  | semRelease (s : PoolState) (l r : List Phase) (tk : Nat)
      (hthreads : s.threads = l ++ Phase.pushed tk :: r) :
      Step s { s with current := s.current + 1,
                      threads := l ++ Phase.done tk :: r }

/-- States reachable from the freshly constructed filter (`n` streams, `m`
concurrent requests) under any interleaving of acquire/release steps. -/
def Reachable (n m : Nat) (s : PoolState) : Prop :=
  Relation.ReflTransGen Step (PoolState.init n m) s

/-- The inductive invariant of the pool protocol:
tickets are issued in order and pairwise distinct; every request past the
semaphore drew a ticket below `current`; `current` equals `n` plus the
number of completed releases; and free-list plus checked-out indices are a
permutation of `0, ..., n-1`. -/
structure PoolInv (n : Nat) (s : PoolState) : Prop where
  issued_lt : ∀ tk ∈ s.issued, tk < s.ticket
  issued_nodup : s.issued.Nodup
  past_lt : ∀ tk ∈ s.past, (tk : Int) < s.current
  current_eq : s.current = (n : Int) + (s.threads.countP Phase.isDone : Int)
  pool_perm : (s.tickets ++ s.held).Perm ((List.range n).map Int.ofNat)

/-! Concrete reachable states used as witnesses: a single request walking
through a one-slot pool, and a two-request scenario for FIFO fairness. -/

def poolS1 : PoolState :=
  { ticket := 1, current := 1, tickets := [0], threads := [Phase.waiting 0] }

def poolS2 : PoolState :=
  { ticket := 1, current := 1, tickets := [0], threads := [Phase.admitted 0] }

def poolS3 : PoolState :=
  { ticket := 1, current := 1, tickets := [], threads := [Phase.holding 0 0] }

def poolS4 : PoolState :=
  { ticket := 1, current := 1, tickets := [0], threads := [Phase.pushed 0] }

def poolS5 : PoolState :=
  { ticket := 1, current := 2, tickets := [0], threads := [Phase.done 0] }

def fifoS1 : PoolState :=
  { ticket := 1, current := 2, tickets := [0, 1],
    threads := [Phase.waiting 0, Phase.idle] }

def fifoS2 : PoolState :=
  { ticket := 2, current := 2, tickets := [0, 1],
    threads := [Phase.waiting 0, Phase.waiting 1] }

def fifoS3 : PoolState :=
  { ticket := 2, current := 2, tickets := [0, 1],
    threads := [Phase.waiting 0, Phase.admitted 1] }

/-! ### Part B: per-request geometry resolution (lines 152-161)

`vsTrtGetFrame` reads the bound input patch shape (binding 0) and output
patch shape (binding 1) of the checked-out instance's execution context and
derives `h_scale = dst_patch_h / src_patch_h`,
`w_scale = dst_patch_w / src_patch_w` by plain C++ integer division, which
truncates toward zero (`Int.tdiv`).  Note the result type: the resolver is
a total function with no error channel - nothing in lines 152-179 can
signal a failure. -/

def resolveScales (src_patch_h src_patch_w dst_patch_h dst_patch_w : Int) :
    Int × Int :=
  (dst_patch_h.tdiv src_patch_h, dst_patch_w.tdiv src_patch_w)

/-! ### Part C: the ready phase of `vsTrtGetFrame` (lines 137-204) -/

/-- Observable actions of the ready phase, in source order:
`newVideoFrame` for the destination (line 137), `d->acquire()` (line 149),
the `inference(...)` call (line 181), `d->release(ticket)` (line 187),
`freeFrame` of each source frame (lines 189-191), `setFilterError`
(line 194) and `freeFrame(dst_frame)` (line 199) on the error path. -/
inductive FrameEvent where
  | newDstFrame
  | acquireSlot (ticket : Int)
  | inferenceCall
  | releaseSlot (ticket : Int)
  | freeSrcFrame (i : Nat)
  | setFilterError (msg : String)
  | freeDstFrame
deriving DecidableEq, Repr

/-- Position of an event in the ready-phase pipeline; the source executes
events in nondecreasing stage order. -/
def FrameEvent.stage : FrameEvent → Nat
  | .newDstFrame => 0
  | .acquireSlot _ => 1
  | .inferenceCall => 2
  | .releaseSlot _ => 3
  | .freeSrcFrame _ => 4
  | .setFilterError _ => 5
  | .freeDstFrame => 6

/-- The `arAllFramesReady` branch of `vsTrtGetFrame`, as the list of events
it performs plus its return value (`some ()` standing for the populated
`dst_frame`, `none` for the `nullptr` return).  `numSrcFrames` is the number
of source frames (one per input node), `ticket` the acquired pool index, and
`inference_result` the value returned by the external `inference` call
(`some msg` on error, following the `std::optional` in the source). -/
def vsTrtGetFrameReady (numSrcFrames : Nat) (ticket : Int)
    (inference_result : Option String) : List FrameEvent × Option Unit :=
  let commonEvents : List FrameEvent :=
    [FrameEvent.newDstFrame, FrameEvent.acquireSlot ticket,
     FrameEvent.inferenceCall, FrameEvent.releaseSlot ticket]
      ++ (List.range numSrcFrames).map FrameEvent.freeSrcFrame
  match inference_result with
  | some msg =>
      (commonEvents
        ++ [FrameEvent.setFilterError ("vsTrtGetFrame: " ++ msg),
            FrameEvent.freeDstFrame],
       none)
  | none => (commonEvents, some ())

/-! ### Part D: `vsTrtCreate` setup orchestration (lines 225-378) -/

/-- One pre-built execution resource (`InferenceInstance` in
`trt_utils.h`); only its existence and identity matter here, the handle is
abstract. -/
structure InferenceInstance where
  exec_context : Int
deriving DecidableEq, Repr

/-- The `BlockSize` variant of the source: either a `RequestedBlockSize`
(manual `block_w`/`block_h`, lines 280-283) or a `VideoSize` (whole-frame
tiling, lines 296-299). -/
inductive BlockSize where
  | requested (block_w block_h : Int)
  | video (width height : Int)
deriving DecidableEq, Repr

/-- Parsed filter arguments.  `none` models `propGetInt` reporting the
optional parameter as absent (the `error` out-parameter set); `verbosity`
only configures the logger and is omitted. -/
structure TrtArgs where
  pad : Option Int
  block_w : Option Int
  block_h : Option Int
  device_id : Option Int
  use_cuda_graph : Option Int
  num_streams : Option Int

/-- Results of the external collaborators consulted during setup:
`checkNodes` (line 252), the first clip's video info (lines 289-290),
`cudaGetDeviceCount` (line 308), `initEngine` (line 339) and `getResource`
(line 350, one call per stream index). -/
structure SetupEnv where
  checkNodesError : Option String
  frame_width : Int
  frame_height : Int
  device_count : Int
  engineLoadResult : Except String Unit
  getResource : Nat → Except String InferenceInstance

/-- External effects of setup whose relative order the spec constrains. -/
inductive SetupEvent where
  | engineLoad
  | createFilter
deriving DecidableEq, Repr

/-- Lines 258-300: padding parse/validation and the tagged block-size
choice.  Manual specification is triggered exactly when `block_w` parses
(`!error1`); a missing `block_h` defaults to `block_w` (line 273). -/
def validateBlockSize (pad width height : Int) (block_w block_h : Option Int) :
    Except String BlockSize :=
  match block_w with
  | some bw =>
      let bh := block_h.getD bw
      if bw - 2 * pad ≤ 0 ∨ bh - 2 * pad ≤ 0 then
        Except.error ("\"pad\" too large")
      else
        Except.ok (BlockSize.requested bw bh)
  | none =>
      if pad ≠ 0 then
        Except.error ("\"block_w\" must be specified")
      else if width - 2 * pad ≤ 0 ∨ height - 2 * pad ≤ 0 then
        Except.error ("\"pad\" too large")
      else
        Except.ok (BlockSize.video width height)

/-- The instance-building loop of lines 348-362: `for i in [0, cnt)` call
`getResource`; the first failure aborts the whole setup with that message. -/
def buildInstances (f : Nat → Except String InferenceInstance) :
    Nat → Nat → Except String (List InferenceInstance)
  | _, 0 => Except.ok []
  | i, c + 1 =>
    match f i with
    | Except.error e => Except.error e
    | Except.ok inst =>
      match buildInstances f (i + 1) c with
      | Except.error e => Except.error e
      | Except.ok rest => Except.ok (inst :: rest)

/-- The state published by a successful `vsTrtCreate`.  `out_vi_from` is
the handle read by `setDimensions(d->out_vi, d->instances[0].exec_context)`
(line 371): `none` exactly when the unguarded `d->instances[0]` access is
out of bounds. -/
structure SetupResult where
  pad : Int
  block_size : BlockSize
  device_id : Int
  use_cuda_graph : Bool
  num_streams : Int
  instances : List InferenceInstance
  tickets : List Int
  semaphore_init : Int
  out_vi_from : Option Int
deriving DecidableEq, Repr

/-- `vsTrtCreate` (lines 225-378): fail-fast validation in source order,
then engine load, instance pool construction, semaphore/free-list
initialisation, and publication.  Every `set_error` message is prefixed by
`__func__ + ": "` as in the source.  Returns the emitted external events
and either the outcome of the first failure or the constructed state.

A negative `num_streams` never reaches the instance-build loop or the
publish step: `d->instances.reserve(d->num_streams)` (line 348, after the
engine load) converts the negative `int` to a huge `size_t`, `reserve`
throws `std::length_error`, and `vsTrtCreate` being `noexcept` the process
terminates.  That abort is modelled as the distinguished non-`ok` outcome
`std::terminate: length_error in instances.reserve` - unlike every
`set_error` result it carries no `vsTrtCreate: ` prefix, and neither a
result nor a `createFilter` event is produced. -/
def vsTrtCreate (args : TrtArgs) (env : SetupEnv) :
    List SetupEvent × Except String SetupResult :=
  match env.checkNodesError with
  | some e => ([], Except.error ("vsTrtCreate: " ++ e))
  | none =>
    let pad := args.pad.getD 0
    if pad < 0 then
      ([], Except.error ("vsTrtCreate: \"pad\" should be non-negative"))
    else
      match validateBlockSize pad env.frame_width env.frame_height
          args.block_w args.block_h with
      | Except.error e => ([], Except.error ("vsTrtCreate: " ++ e))
      | Except.ok block_size =>
        let device_id := args.device_id.getD 0
        if 0 ≤ device_id ∧ device_id < env.device_count then
          let use_cuda_graph := args.use_cuda_graph.getD 0 != 0
          let num_streams := args.num_streams.getD 1
          match env.engineLoadResult with
          | Except.error e =>
              ([SetupEvent.engineLoad], Except.error ("vsTrtCreate: " ++ e))
          | Except.ok _ =>
            if num_streams < 0 then
              ([SetupEvent.engineLoad],
               Except.error
                 ("std::terminate: length_error in instances.reserve"))
            else
              match buildInstances env.getResource 0 num_streams.toNat with
              | Except.error e =>
                  ([SetupEvent.engineLoad],
                   Except.error ("vsTrtCreate: " ++ e))
              | Except.ok instances =>
                ([SetupEvent.engineLoad, SetupEvent.createFilter],
                 Except.ok
                   { pad := pad
                     block_size := block_size
                     device_id := device_id
                     use_cuda_graph := use_cuda_graph
                     num_streams := num_streams
                     instances := instances
                     tickets := (List.range num_streams.toNat).map Int.ofNat
                     semaphore_init := num_streams
                     out_vi_from :=
                       (instances.get? 0).map InferenceInstance.exec_context })
        else
          ([], Except.error
            ("vsTrtCreate: invalid device ID (" ++ toString device_id ++ ")"))

/-! Concrete setup inputs used by witnesses. -/

def demoEnv : SetupEnv where
  checkNodesError := none
  frame_width := 64
  frame_height := 64
  device_count := 1
  engineLoadResult := Except.ok ()
  getResource := fun i => Except.ok { exec_context := Int.ofNat i }

def demoArgsBlock : TrtArgs :=
  { pad := some 20, block_w := some 32, block_h := some 32,
    device_id := none, use_cuda_graph := none, num_streams := none }

def demoArgsPadOnly : TrtArgs :=
  { pad := some 4, block_w := none, block_h := none,
    device_id := none, use_cuda_graph := none, num_streams := none }

def demoArgsNs0 : TrtArgs :=
  { pad := none, block_w := none, block_h := none,
    device_id := none, use_cuda_graph := none, num_streams := some 0 }

def demoArgsNsNeg : TrtArgs :=
  { pad := none, block_w := none, block_h := none,
    device_id := none, use_cuda_graph := none, num_streams := some (-1) }

def demoResultNs0 : SetupResult :=
  { pad := 0, block_size := BlockSize.video 64 64, device_id := 0,
    use_cuda_graph := false, num_streams := 0, instances := [],
    tickets := [], semaphore_init := 0, out_vi_from := none }

/-! ## Theorems -/

/-! ### Geometry resolution (claims C4 and C5) -/

/-- C5: the per-call scale factors are derived from the checked-out
instance's bound tensor shapes as `h_scale = dst_patch_h / src_patch_h`,
`w_scale = dst_patch_w / src_patch_w`; whenever the output patch is an
exact integer multiple of the input patch the resolver returns those exact
factors - in particular `(2*h_in, 2*w_in)` against `(h_in, w_in)` yields
`(2, 2)`. -/
theorem resolveScales_exact (h_in w_in hsf wsf : Int)
    (hh : h_in ≠ 0) (hw : w_in ≠ 0) :
    resolveScales h_in w_in (hsf * h_in) (wsf * w_in) = (hsf, wsf) := by
  unfold resolveScales
  rw [Int.mul_tdiv_cancel _ hh, Int.mul_tdiv_cancel _ hw]

/-- Witness for C5: a 3x4 input patch bound against a 6x8 output patch
resolves to scale factors (2, 2). -/
theorem resolveScales_exact_witness :
    resolveScales 3 4 (2 * 3) (2 * 4) = (2, 2) :=
  resolveScales_exact 3 4 2 2 (by decide) (by decide)

/-- C4 (code evidence): with bound input patch 2x2 and output patch 3x3 -
a non-integral 1.5 ratio - the derivation of lines 160-161 silently
truncates to scale factors `(1, 1)` (so `h_scale * src_patch_h` no longer
recovers `dst_patch_h`), and `resolveScales` has no error outcome at all:
no invariant violation is signalled. -/
theorem resolveScales_truncates_silently :
    resolveScales 2 2 3 3 = (1, 1) ∧ (resolveScales 2 2 3 3).1 * 2 ≠ 3 := by
  decide

/-! ### Ready-phase ordering (claims C6 and C9) -/

theorem map_stage_freeSrc (l : List Nat) :
    (l.map FrameEvent.freeSrcFrame).map FrameEvent.stage
      = List.replicate l.length 4 := by
  induction l with
  | nil => rfl
  | cons a t ih => simp [List.replicate_succ, ih, FrameEvent.stage]

theorem pairwise_le_replicate (k x : Nat) :
    (List.replicate k x).Pairwise (fun a b : Nat => a ≤ b) := by
  induction k with
  | zero => simp
  | succ c ih =>
    rw [List.replicate_succ]
    exact List.Pairwise.cons
      (fun b hb => le_of_eq (List.eq_of_mem_replicate hb).symm) ih

/-- C6: for every request reaching the ready phase, the trace is ordered by
pipeline stage - destination allocation, slot acquire, inference, slot
release, source-frame frees, then (on error) error reporting - so the slot
release happens right after the inference call returns (regardless of
outcome) and before every source-frame free, which happens before any
error/result reporting; on inference error a filter error tagged
`vsTrtGetFrame: ` is raised and no frame is produced, on success the
destination frame is returned. -/
theorem getFrame_release_order (k : Nat) (t : Int) (res : Option String) :
    (((vsTrtGetFrameReady k t res).1.map FrameEvent.stage).Pairwise
        (fun a b => a ≤ b)) ∧
    (vsTrtGetFrameReady k t res).1.take 4
      = [FrameEvent.newDstFrame, FrameEvent.acquireSlot t,
         FrameEvent.inferenceCall, FrameEvent.releaseSlot t] ∧
    FrameEvent.releaseSlot t ∈ (vsTrtGetFrameReady k t res).1 ∧
    (∀ i, i < k →
      FrameEvent.freeSrcFrame i ∈ (vsTrtGetFrameReady k t res).1) ∧
    (∀ msg, res = some msg →
      FrameEvent.setFilterError ("vsTrtGetFrame: " ++ msg)
          ∈ (vsTrtGetFrameReady k t res).1 ∧
      (vsTrtGetFrameReady k t res).2 = none) ∧
    (res = none →
      (vsTrtGetFrameReady k t res).2 = some () ∧
      ∀ msg, FrameEvent.setFilterError msg ∉ (vsTrtGetFrameReady k t res).1) := by
  have hstage : ((List.range k).map FrameEvent.freeSrcFrame).map FrameEvent.stage
      = List.replicate k 4 := by
    rw [map_stage_freeSrc, List.length_range]
  cases res with
  | none =>
    refine ⟨?_, rfl, ?_, ?_, ?_, ?_⟩
    · simp only [vsTrtGetFrameReady, List.cons_append, List.nil_append,
        List.map_cons, List.map_append, hstage, FrameEvent.stage]
      refine List.Pairwise.cons ?_ ?_
      · intro b hb
        simp only [List.mem_cons, List.mem_append] at hb
        rcases hb with rfl | rfl | rfl | hb
        · omega
        · omega
        · omega
        · have := List.eq_of_mem_replicate hb; omega
      refine List.Pairwise.cons ?_ ?_
      · intro b hb
        simp only [List.mem_cons, List.mem_append] at hb
        rcases hb with rfl | rfl | hb
        · omega
        · omega
        · have := List.eq_of_mem_replicate hb; omega
      refine List.Pairwise.cons ?_ ?_
      · intro b hb
        simp only [List.mem_cons, List.mem_append] at hb
        rcases hb with rfl | hb
        · omega
        · have := List.eq_of_mem_replicate hb; omega
      refine List.Pairwise.cons ?_ ?_
      · intro b hb
        have := List.eq_of_mem_replicate hb; omega
      · exact pairwise_le_replicate k 4
    · simp [vsTrtGetFrameReady]
    · intro i hi
      have hm : FrameEvent.freeSrcFrame i
          ∈ (List.range k).map FrameEvent.freeSrcFrame :=
        List.mem_map_of_mem _ (List.mem_range.mpr hi)
      simp only [vsTrtGetFrameReady]
      exact List.mem_append_right _ hm
    · intro msg h
      exact Option.noConfusion h
    · intro _
      refine ⟨rfl, ?_⟩
      intro msg
      simp [vsTrtGetFrameReady]
  | some emsg =>
    refine ⟨?_, rfl, ?_, ?_, ?_, ?_⟩
    · simp only [vsTrtGetFrameReady, List.cons_append, List.nil_append,
        List.map_cons, List.map_append, hstage, FrameEvent.stage,
        List.append_assoc]
      refine List.Pairwise.cons ?_ ?_
      · intro b hb
        simp only [List.mem_cons, List.mem_append] at hb
        rcases hb with rfl | rfl | rfl | hb | rfl | rfl | h
        · omega
        · omega
        · omega
        · have := List.eq_of_mem_replicate hb; omega
        · omega
        · omega
        · cases h
      refine List.Pairwise.cons ?_ ?_
      · intro b hb
        simp only [List.mem_cons, List.mem_append] at hb
        rcases hb with rfl | rfl | hb | rfl | rfl | h
        · omega
        · omega
        · have := List.eq_of_mem_replicate hb; omega
        · omega
        · omega
        · cases h
      refine List.Pairwise.cons ?_ ?_
      · intro b hb
        simp only [List.mem_cons, List.mem_append] at hb
        rcases hb with rfl | hb | rfl | rfl | h
        · omega
        · have := List.eq_of_mem_replicate hb; omega
        · omega
        · omega
        · cases h
      refine List.Pairwise.cons ?_ ?_
      · intro b hb
        simp only [List.mem_cons, List.mem_append] at hb
        rcases hb with hb | rfl | rfl | h
        · have := List.eq_of_mem_replicate hb; omega
        · omega
        · omega
        · cases h
      refine List.pairwise_append.mpr ⟨pairwise_le_replicate k 4, by decide, ?_⟩
      intro a ha b hb
      have ha4 := List.eq_of_mem_replicate ha
      simp only [List.mem_cons, List.not_mem_nil] at hb
      rcases hb with rfl | rfl | h
      · omega
      · omega
      · cases h
    · simp [vsTrtGetFrameReady]
    · intro i hi
      have hm : FrameEvent.freeSrcFrame i
          ∈ (List.range k).map FrameEvent.freeSrcFrame :=
        List.mem_map_of_mem _ (List.mem_range.mpr hi)
      simp only [vsTrtGetFrameReady]
      exact List.mem_append_left _ (List.mem_append_right _ hm)
    · intro msg h
      cases h
      refine ⟨?_, rfl⟩
      simp [vsTrtGetFrameReady]
    · intro h
      exact Option.noConfusion h

/-- Witness for C6: a failing inference over two source frames releases
slot 0 and produces no frame. -/
theorem getFrame_release_order_witness :
    FrameEvent.releaseSlot 0 ∈ (vsTrtGetFrameReady 2 0 (some "fail")).1 ∧
    (vsTrtGetFrameReady 2 0 (some "fail")).2 = none := by
  have h := getFrame_release_order 2 0 (some "fail")
  exact ⟨h.2.2.1, (h.2.2.2.2.1 "fail" rfl).2⟩

/-- C9: on the per-request inference-error path the trace contains the pool
slot release, every source-frame free and the destination-frame free, and
the request returns no frame - an inference failure leaks neither the slot
nor the source frames nor the destination frame. -/
theorem getFrame_error_frees_dst (k : Nat) (t : Int) (msg : String) :
    FrameEvent.releaseSlot t ∈ (vsTrtGetFrameReady k t (some msg)).1 ∧
    (∀ i, i < k →
      FrameEvent.freeSrcFrame i ∈ (vsTrtGetFrameReady k t (some msg)).1) ∧
    FrameEvent.freeDstFrame ∈ (vsTrtGetFrameReady k t (some msg)).1 ∧
    (vsTrtGetFrameReady k t (some msg)).2 = none := by
  refine ⟨?_, ?_, ?_, rfl⟩
  · simp [vsTrtGetFrameReady]
  · intro i hi
    have hm : FrameEvent.freeSrcFrame i
        ∈ (List.range k).map FrameEvent.freeSrcFrame :=
      List.mem_map_of_mem _ (List.mem_range.mpr hi)
    simp only [vsTrtGetFrameReady]
    exact List.mem_append_left _ (List.mem_append_right _ hm)
  · simp [vsTrtGetFrameReady]

/-- Witness for C9: with one source frame and a failing inference, the
destination frame is freed. -/
theorem getFrame_error_frees_dst_witness :
    FrameEvent.freeDstFrame ∈ (vsTrtGetFrameReady 1 0 (some "oom")).1 := by
  have h := getFrame_error_frees_dst 1 0 "oom"
  exact h.2.2.1

/-! ### Setup validation (claims C7, C8 and C10) -/

theorem buildInstances_ok_length (f : Nat → Except String InferenceInstance) :
    ∀ (cnt i : Nat) (l : List InferenceInstance),
      buildInstances f i cnt = Except.ok l → l.length = cnt := by
  intro cnt
  induction cnt with
  | zero =>
    intro i l h
    simp only [buildInstances] at h
    cases h
    rfl
  | succ c ih =>
    intro i l h
    simp only [buildInstances] at h
    cases hf : f i with
    | error e => rw [hf] at h; cases h
    | ok inst =>
      rw [hf] at h
      cases hrec : buildInstances f (i + 1) c with
      | error e => rw [hrec] at h; cases h
      | ok rest =>
        rw [hrec] at h
        cases h
        simp [ih (i + 1) rest hrec]

/-- C7: with an explicit tile request whose effective region is
non-positive (`block_w - 2*pad ≤ 0` or `block_h - 2*pad ≤ 0`, e.g.
32x32 with pad 20), setup fails with the configuration error
`"pad" too large` and the engine loader is never invoked; `pad = 4` on the
same 32x32 block passes this validation. -/
theorem setup_pad_too_large (env : SetupEnv) (pad bw bh : Int)
    (hc : env.checkNodesError = none) (hpad : 0 ≤ pad)
    (hbad : bw - 2 * pad ≤ 0 ∨ bh - 2 * pad ≤ 0) :
    (vsTrtCreate { pad := some pad, block_w := some bw, block_h := some bh,
                   device_id := none, use_cuda_graph := none,
                   num_streams := none } env).2
        = Except.error ("vsTrtCreate: \"pad\" too large") ∧
    SetupEvent.engineLoad ∉
      (vsTrtCreate { pad := some pad, block_w := some bw, block_h := some bh,
                     device_id := none, use_cuda_graph := none,
                     num_streams := none } env).1 ∧
    validateBlockSize 4 env.frame_width env.frame_height (some 32) (some 32)
        = Except.ok (BlockSize.requested 32 32) := by
  have hv : validateBlockSize pad env.frame_width env.frame_height
      (some bw) (some bh) = Except.error ("\"pad\" too large") := by
    simp only [validateBlockSize, Option.getD_some]
    rw [if_pos hbad]
  have hmain : vsTrtCreate { pad := some pad, block_w := some bw,
                             block_h := some bh, device_id := none,
                             use_cuda_graph := none,
                             num_streams := none } env
      = ([], Except.error ("vsTrtCreate: " ++ "\"pad\" too large")) := by
    simp only [vsTrtCreate, hc, Option.getD_some, hv]
    rw [if_neg (by omega : ¬ pad < 0)]
  refine ⟨?_, ?_, ?_⟩
  · rw [hmain]
    rfl
  · rw [hmain]
    exact List.not_mem_nil SetupEvent.engineLoad
  · simp only [validateBlockSize, Option.getD_some]
    rw [if_neg (by decide : ¬ ((32 : Int) - 2 * 4 ≤ 0 ∨ (32 : Int) - 2 * 4 ≤ 0))]

/-- Witness for C7: the 32x32 block with pad 20 fails before engine load in
a concrete environment. -/
theorem setup_pad_too_large_witness :
    (vsTrtCreate demoArgsBlock demoEnv).2
        = Except.error ("vsTrtCreate: \"pad\" too large") ∧
    SetupEvent.engineLoad ∉ (vsTrtCreate demoArgsBlock demoEnv).1 := by
  have h := setup_pad_too_large demoEnv 20 32 32 rfl (by decide)
    (by decide)
  exact ⟨h.1, h.2.1⟩

/-- C8: with the whole-frame default (no `block_w` given) any nonzero `pad`
makes setup fail with a configuration error: `"pad" should be non-negative`
for negative values, otherwise `"block_w" must be specified`. -/
theorem setup_whole_frame_rejects_pad (env : SetupEnv) (pad : Int)
    (bh dev ucg ns : Option Int) (hc : env.checkNodesError = none)
    (hpad : pad ≠ 0) :
    (vsTrtCreate { pad := some pad, block_w := none, block_h := bh,
                   device_id := dev, use_cuda_graph := ucg,
                   num_streams := ns } env).2
      = Except.error (if pad < 0
          then ("vsTrtCreate: \"pad\" should be non-negative")
          else ("vsTrtCreate: \"block_w\" must be specified")) := by
  by_cases hneg : pad < 0
  · simp only [vsTrtCreate, hc, Option.getD_some]
    rw [if_pos hneg, if_pos hneg]
  · have hv : validateBlockSize pad env.frame_width env.frame_height none bh
        = Except.error ("\"block_w\" must be specified") := by
      simp only [validateBlockSize]
      rw [if_pos hpad]
    simp only [vsTrtCreate, hc, Option.getD_some, hv]
    rw [if_neg hneg, if_neg hneg]
    rfl

/-- Witness for C8: `pad = 4` without `block_w` is rejected. -/
theorem setup_whole_frame_rejects_pad_witness :
    (vsTrtCreate demoArgsPadOnly demoEnv).2
        = Except.error ("vsTrtCreate: \"block_w\" must be specified") := by
  have h := setup_whole_frame_rejects_pad demoEnv 4 none none none none rfl
    (by decide)
  rw [if_neg (by decide : ¬ ((4 : Int) < 0))] at h
  exact h

/-- C10 (amended): setup performs no validation that `num_streams` is
positive.  Any successful setup with `num_streams = ns` builds exactly
`ns.toNat` instances, so for `ns ≥ 1` the unguarded `instances[0]` read
behind the published output metadata is in bounds, and at `ns = 0` the
instance sequence is empty at the publish step and the element-0 access
yields no defined result; for `ns < 0`, however, the publish step is never
reached - after the engine loads, `instances.reserve(num_streams)`
(line 348) converts the negative count to a huge `size_t` and terminates
the `noexcept` setup, so no result is ever published. -/
theorem setup_num_streams_unchecked (args : TrtArgs) (env : SetupEnv)
    (ns : Int) (hns : args.num_streams = some ns) :
    (∀ r : SetupResult, (vsTrtCreate args env).2 = Except.ok r →
      r.num_streams = ns ∧
      r.instances.length = ns.toNat ∧
      (1 ≤ ns → r.out_vi_from.isSome = true) ∧
      (ns = 0 → r.instances = [] ∧ r.out_vi_from = none)) ∧
    (ns < 0 → ∀ r : SetupResult, (vsTrtCreate args env).2 ≠ Except.ok r) := by
  constructor
  · intro r hok
    cases hce : env.checkNodesError with
    | some e => simp [vsTrtCreate, hce] at hok
    | none =>
      by_cases hpadneg : args.pad.getD 0 < 0
      · simp [vsTrtCreate, hce, hpadneg] at hok
      · cases hv : validateBlockSize (args.pad.getD 0) env.frame_width
            env.frame_height args.block_w args.block_h with
        | error e => simp [vsTrtCreate, hce, hpadneg, hv] at hok
        | ok bs =>
          by_cases hdev : 0 ≤ args.device_id.getD 0 ∧
              args.device_id.getD 0 < env.device_count
          · cases hel : env.engineLoadResult with
            | error e =>
              simp [vsTrtCreate, hce, hpadneg, hv, hdev, hel] at hok
            | ok u =>
              by_cases hneg : ns < 0
              · simp [vsTrtCreate, hce, hpadneg, hv, hdev, hel, hns,
                  hneg] at hok
              · cases hbi : buildInstances env.getResource 0 ns.toNat with
                | error e =>
                  simp [vsTrtCreate, hce, hpadneg, hv, hdev, hel, hns,
                    hneg, hbi] at hok
                | ok insts =>
                  simp [vsTrtCreate, hce, hpadneg, hv, hdev, hel, hns,
                    hneg, hbi] at hok
                  have hlen := buildInstances_ok_length env.getResource
                    ns.toNat 0 insts hbi
                  subst hok
                  refine ⟨rfl, hlen, ?_, ?_⟩
                  · intro h1
                    have hpos : 0 < insts.length := by omega
                    cases insts with
                    | nil => simp at hpos
                    | cons a t => simp
                  · intro h0
                    have hzero : insts.length = 0 := by omega
                    have hnil : insts = [] := List.length_eq_zero.mp hzero
                    subst hnil
                    exact ⟨rfl, rfl⟩
          · simp [vsTrtCreate, hce, hpadneg, hv, hdev] at hok
  · intro hneg r hok
    cases hce : env.checkNodesError with
    | some e => simp [vsTrtCreate, hce] at hok
    | none =>
      by_cases hpadneg : args.pad.getD 0 < 0
      · simp [vsTrtCreate, hce, hpadneg] at hok
      · cases hv : validateBlockSize (args.pad.getD 0) env.frame_width
            env.frame_height args.block_w args.block_h with
        | error e => simp [vsTrtCreate, hce, hpadneg, hv] at hok
        | ok bs =>
          by_cases hdev : 0 ≤ args.device_id.getD 0 ∧
              args.device_id.getD 0 < env.device_count
          · cases hel : env.engineLoadResult with
            | error e =>
              simp [vsTrtCreate, hce, hpadneg, hv, hdev, hel] at hok
            | ok u =>
              simp [vsTrtCreate, hce, hpadneg, hv, hdev, hel, hns,
                hneg] at hok
          · simp [vsTrtCreate, hce, hpadneg, hv, hdev] at hok

/-- Witness for C10: `num_streams = 0` sails through setup and publishes
from an empty instance pool, with the element-0 read undefined. -/
theorem setup_num_streams_unchecked_witness :
    demoResultNs0.instances = [] ∧ demoResultNs0.out_vi_from = none := by
  have h := setup_num_streams_unchecked demoArgsNs0 demoEnv 0 rfl
  exact (h.1 demoResultNs0 rfl).2.2.2 rfl

/-- C10 counterexample: at `num_streams = -1` the claimed empty-pool
publish never happens - the engine loads and then setup terminates at the
negative `instances.reserve` (line 348), so no filter is registered and no
element-0 access occurs at all. -/
theorem setup_num_streams_neg_terminates :
    (vsTrtCreate demoArgsNsNeg demoEnv).2
        = Except.error ("std::terminate: length_error in instances.reserve")
      ∧ SetupEvent.engineLoad ∈ (vsTrtCreate demoArgsNsNeg demoEnv).1
      ∧ SetupEvent.createFilter ∉ (vsTrtCreate demoArgsNsNeg demoEnv).1 :=
  ⟨rfl, by decide, by decide⟩

/-! ### Pool protocol invariants (claims C1, C2 and C3) -/

theorem filterMap_middle_none {α : Type} (f : Phase → Option α)
    (l r : List Phase) (p : Phase) (h : f p = none) :
    (l ++ p :: r).filterMap f = l.filterMap f ++ r.filterMap f := by
  simp [List.filterMap_append, List.filterMap_cons, h]

theorem filterMap_middle_some {α : Type} (f : Phase → Option α)
    (l r : List Phase) (p : Phase) (a : α) (h : f p = some a) :
    (l ++ p :: r).filterMap f = l.filterMap f ++ a :: r.filterMap f := by
  simp [List.filterMap_append, List.filterMap_cons, h]

theorem filterMap_congr_middle {α : Type} (f : Phase → Option α)
    (l r : List Phase) (p q : Phase) (h : f p = f q) :
    (l ++ p :: r).filterMap f = (l ++ q :: r).filterMap f := by
  cases hq : f q with
  | none =>
    rw [filterMap_middle_none f l r p (by rw [h, hq]),
      filterMap_middle_none f l r q hq]
  | some a =>
    rw [filterMap_middle_some f l r p a (by rw [h, hq]),
      filterMap_middle_some f l r q a hq]

theorem countP_middle_false (q : Phase → Bool) (l r : List Phase) (p : Phase)
    (h : q p = false) :
    (l ++ p :: r).countP q = l.countP q + r.countP q := by
  simp [List.countP_append, List.countP_cons, h]

theorem countP_middle_true (q : Phase → Bool) (l r : List Phase) (p : Phase)
    (h : q p = true) :
    (l ++ p :: r).countP q = l.countP q + r.countP q + 1 := by
  simp [List.countP_append, List.countP_cons, h]
  omega

theorem nodup_lt_length_le (l : List Nat) (c : Nat) (hn : l.Nodup)
    (hlt : ∀ x ∈ l, x < c) : l.length ≤ c := by
  classical
  have hsub : l.toFinset ⊆ Finset.range c := by
    intro x hx
    rw [List.mem_toFinset] at hx
    exact Finset.mem_range.mpr (hlt x hx)
  calc l.length = l.toFinset.card := (List.toFinset_card_of_nodup hn).symm
    _ ≤ (Finset.range c).card := Finset.card_le_card hsub
    _ = c := Finset.card_range c

theorem past_sublist_issued (l : List Phase) :
    (l.filterMap Phase.pastTk).Sublist (l.filterMap Phase.issuedTk) := by
  induction l with
  | nil => simp
  | cons p t ih =>
    cases p with
    | idle =>
      simpa [List.filterMap_cons, Phase.pastTk, Phase.issuedTk] using ih
    | waiting tk =>
      simp only [List.filterMap_cons, Phase.pastTk, Phase.issuedTk]
      exact List.Sublist.cons _ ih
    | admitted tk =>
      simp only [List.filterMap_cons, Phase.pastTk, Phase.issuedTk]
      exact List.Sublist.cons₂ _ ih
    | holding tk idx =>
      simp only [List.filterMap_cons, Phase.pastTk, Phase.issuedTk]
      exact List.Sublist.cons₂ _ ih
    | pushed tk =>
      simp only [List.filterMap_cons, Phase.pastTk, Phase.issuedTk]
      exact List.Sublist.cons₂ _ ih
    | done tk =>
      simp only [List.filterMap_cons, Phase.pastTk, Phase.issuedTk]
      exact List.Sublist.cons₂ _ ih

theorem past_length (l : List Phase) :
    (l.filterMap Phase.pastTk).length
      = l.countP Phase.isInFlight + l.countP Phase.isDone := by
  induction l with
  | nil => rfl
  | cons p t ih =>
    cases p <;>
      simp [List.filterMap_cons, List.countP_cons, Phase.pastTk,
        Phase.isInFlight, Phase.isDone, ih] <;>
      omega

theorem held_length (l : List Phase) :
    (l.filterMap Phase.heldIdx).length = l.countP Phase.isHolding := by
  induction l with
  | nil => rfl
  | cons p t ih =>
    cases p <;>
      simp [List.filterMap_cons, List.countP_cons, Phase.heldIdx,
        Phase.isHolding, ih]

theorem countP_holding_le_inflight (l : List Phase) :
    l.countP Phase.isHolding ≤ l.countP Phase.isInFlight := by
  induction l with
  | nil => simp
  | cons p t ih =>
    rw [List.countP_cons, List.countP_cons]
    cases p <;> simp [Phase.isHolding, Phase.isInFlight] <;> omega

theorem holding_lt_inflight {l : List Phase} {tk : Nat}
    (h : Phase.admitted tk ∈ l) :
    l.countP Phase.isHolding + 1 ≤ l.countP Phase.isInFlight := by
  induction l with
  | nil => cases h
  | cons p t ih =>
    rw [List.countP_cons, List.countP_cons]
    rcases List.mem_cons.mp h with heq | hmem
    · rw [← heq]
      have hle := countP_holding_le_inflight t
      simp [Phase.isHolding, Phase.isInFlight]
      omega
    · have hrec := ih hmem
      have hm : (if Phase.isHolding p then 1 else 0)
          ≤ (if Phase.isInFlight p then 1 else 0) := by
        cases p <;> simp [Phase.isHolding, Phase.isInFlight]
      omega

theorem mem_range_map_ofNat (n : Nat) (idx : Int) :
    idx ∈ (List.range n).map Int.ofNat ↔ 0 ≤ idx ∧ idx < (n : Int) := by
  simp only [List.mem_map, List.mem_range, Int.ofNat_eq_coe]
  constructor
  · rintro ⟨a, ha, rfl⟩
    omega
  · rintro ⟨h0, hn⟩
    exact ⟨idx.toNat, by omega, by omega⟩

theorem range_map_ofNat_nodup (n : Nat) :
    ((List.range n).map Int.ofNat).Nodup :=
  (List.nodup_range n).map (fun a b hab => Int.ofNat.inj hab)

theorem filterMap_replicate_idle {α : Type} (f : Phase → Option α) (m : Nat)
    (h : f Phase.idle = none) :
    (List.replicate m Phase.idle).filterMap f = [] := by
  induction m with
  | zero => rfl
  | succ k ih => simp [List.replicate_succ, List.filterMap_cons, h, ih]

theorem countP_replicate_idle (q : Phase → Bool) (m : Nat)
    (h : q Phase.idle = false) :
    (List.replicate m Phase.idle).countP q = 0 := by
  induction m with
  | zero => rfl
  | succ k ih => simp [List.replicate_succ, List.countP_cons, h, ih]

theorem poolInv_init (n m : Nat) : PoolInv n (PoolState.init n m) := by
  have hiss : (PoolState.init n m).issued = [] :=
    filterMap_replicate_idle Phase.issuedTk m rfl
  have hpast : (PoolState.init n m).past = [] :=
    filterMap_replicate_idle Phase.pastTk m rfl
  have hheld : (PoolState.init n m).held = [] :=
    filterMap_replicate_idle Phase.heldIdx m rfl
  have hcnt : (PoolState.init n m).threads.countP Phase.isDone = 0 :=
    countP_replicate_idle Phase.isDone m rfl
  refine ⟨?_, ?_, ?_, ?_, ?_⟩
  · intro tk htk
    rw [hiss] at htk
    cases htk
  · rw [hiss]
    exact List.nodup_nil
  · intro tk htk
    rw [hpast] at htk
    cases htk
  · show ((n : Nat) : Int)
      = (n : Int) + ((PoolState.init n m).threads.countP Phase.isDone : Int)
    rw [hcnt]
    simp
  · show ((List.range n).map Int.ofNat ++ (PoolState.init n m).held).Perm
      ((List.range n).map Int.ofNat)
    rw [hheld, List.append_nil]

theorem poolInv_step {n : Nat} {s t : PoolState} (hs : PoolInv n s)
    (hstep : Step s t) : PoolInv n t := by
  obtain ⟨hisslt, hissnd, hpastlt, hcur, hperm⟩ := hs
  cases hstep with
  | startAcquire l r hthreads =>
    have hIssOld : s.issued
        = l.filterMap Phase.issuedTk ++ r.filterMap Phase.issuedTk := by
      simp only [PoolState.issued, hthreads]
      exact filterMap_middle_none Phase.issuedTk l r Phase.idle rfl
    have hPastOld : s.past
        = l.filterMap Phase.pastTk ++ r.filterMap Phase.pastTk := by
      simp only [PoolState.past, hthreads]
      exact filterMap_middle_none Phase.pastTk l r Phase.idle rfl
    have hHeldOld : s.held
        = l.filterMap Phase.heldIdx ++ r.filterMap Phase.heldIdx := by
      simp only [PoolState.held, hthreads]
      exact filterMap_middle_none Phase.heldIdx l r Phase.idle rfl
    refine ⟨?_, ?_, ?_, ?_, ?_⟩
    · show ∀ tk ∈ (l ++ Phase.waiting s.ticket :: r).filterMap Phase.issuedTk,
        tk < s.ticket + 1
      intro tk htk
      rw [filterMap_middle_some Phase.issuedTk l r (Phase.waiting s.ticket)
        s.ticket rfl, List.mem_append, List.mem_cons] at htk
      rcases htk with h1 | h2 | h3
      · have := hisslt tk (by
          rw [hIssOld]
          exact List.mem_append_left _ h1)
        omega
      · omega
      · have := hisslt tk (by
          rw [hIssOld]
          exact List.mem_append_right _ h3)
        omega
    · show ((l ++ Phase.waiting s.ticket :: r).filterMap Phase.issuedTk).Nodup
      rw [filterMap_middle_some Phase.issuedTk l r (Phase.waiting s.ticket)
        s.ticket rfl, List.nodup_middle, List.nodup_cons]
      constructor
      · intro hmem
        have := hisslt s.ticket (by rw [hIssOld]; exact hmem)
        omega
      · rw [← hIssOld]
        exact hissnd
    · show ∀ tk ∈ (l ++ Phase.waiting s.ticket :: r).filterMap Phase.pastTk,
        (tk : Int) < s.current
      rw [filterMap_middle_none Phase.pastTk l r (Phase.waiting s.ticket) rfl,
        ← hPastOld]
      exact hpastlt
    · show s.current = (n : Int)
        + ((l ++ Phase.waiting s.ticket :: r).countP Phase.isDone : Int)
      rw [countP_middle_false Phase.isDone l r (Phase.waiting s.ticket) rfl,
        hcur, hthreads,
        countP_middle_false Phase.isDone l r Phase.idle rfl]
    · show (s.tickets
          ++ (l ++ Phase.waiting s.ticket :: r).filterMap Phase.heldIdx).Perm
        ((List.range n).map Int.ofNat)
      rw [filterMap_middle_none Phase.heldIdx l r (Phase.waiting s.ticket) rfl,
        ← hHeldOld]
      exact hperm
  | grant l r tk hthreads hlt2 =>
    have hPastOld : s.past
        = l.filterMap Phase.pastTk ++ r.filterMap Phase.pastTk := by
      simp only [PoolState.past, hthreads]
      exact filterMap_middle_none Phase.pastTk l r (Phase.waiting tk) rfl
    have hIssEq : (l ++ Phase.admitted tk :: r).filterMap Phase.issuedTk
        = s.issued := by
      simp only [PoolState.issued, hthreads]
      exact filterMap_congr_middle Phase.issuedTk l r (Phase.admitted tk)
        (Phase.waiting tk) rfl
    have hHeldEq : (l ++ Phase.admitted tk :: r).filterMap Phase.heldIdx
        = s.held := by
      simp only [PoolState.held, hthreads]
      exact filterMap_congr_middle Phase.heldIdx l r (Phase.admitted tk)
        (Phase.waiting tk) rfl
    refine ⟨?_, ?_, ?_, ?_, ?_⟩
    · show ∀ x ∈ (l ++ Phase.admitted tk :: r).filterMap Phase.issuedTk,
        x < s.ticket
      rw [hIssEq]
      exact hisslt
    · show ((l ++ Phase.admitted tk :: r).filterMap Phase.issuedTk).Nodup
      rw [hIssEq]
      exact hissnd
    · show ∀ x ∈ (l ++ Phase.admitted tk :: r).filterMap Phase.pastTk,
        (x : Int) < s.current
      rw [filterMap_middle_some Phase.pastTk l r (Phase.admitted tk) tk rfl]
      intro x hx
      rw [List.mem_append, List.mem_cons] at hx
      rcases hx with h1 | h2 | h3
      · exact hpastlt x (by
          rw [hPastOld]
          exact List.mem_append_left _ h1)
      · rw [h2]
        exact hlt2
      · exact hpastlt x (by
          rw [hPastOld]
          exact List.mem_append_right _ h3)
    · show s.current = (n : Int)
        + ((l ++ Phase.admitted tk :: r).countP Phase.isDone : Int)
      rw [countP_middle_false Phase.isDone l r (Phase.admitted tk) rfl,
        hcur, hthreads,
        countP_middle_false Phase.isDone l r (Phase.waiting tk) rfl]
    · show (s.tickets
          ++ (l ++ Phase.admitted tk :: r).filterMap Phase.heldIdx).Perm
        ((List.range n).map Int.ofNat)
      rw [hHeldEq]
      exact hperm
  | pop l r tk ts idx hthreads htickets =>
    have hHeldOld : s.held
        = l.filterMap Phase.heldIdx ++ r.filterMap Phase.heldIdx := by
      simp only [PoolState.held, hthreads]
      exact filterMap_middle_none Phase.heldIdx l r (Phase.admitted tk) rfl
    have hIssEq : (l ++ Phase.holding tk idx :: r).filterMap Phase.issuedTk
        = s.issued := by
      simp only [PoolState.issued, hthreads]
      exact filterMap_congr_middle Phase.issuedTk l r (Phase.holding tk idx)
        (Phase.admitted tk) rfl
    have hPastEq : (l ++ Phase.holding tk idx :: r).filterMap Phase.pastTk
        = s.past := by
      simp only [PoolState.past, hthreads]
      exact filterMap_congr_middle Phase.pastTk l r (Phase.holding tk idx)
        (Phase.admitted tk) rfl
    refine ⟨?_, ?_, ?_, ?_, ?_⟩
    · show ∀ x ∈ (l ++ Phase.holding tk idx :: r).filterMap Phase.issuedTk,
        x < s.ticket
      rw [hIssEq]
      exact hisslt
    · show ((l ++ Phase.holding tk idx :: r).filterMap Phase.issuedTk).Nodup
      rw [hIssEq]
      exact hissnd
    · show ∀ x ∈ (l ++ Phase.holding tk idx :: r).filterMap Phase.pastTk,
        (x : Int) < s.current
      rw [hPastEq]
      exact hpastlt
    · show s.current = (n : Int)
        + ((l ++ Phase.holding tk idx :: r).countP Phase.isDone : Int)
      rw [countP_middle_false Phase.isDone l r (Phase.holding tk idx) rfl,
        hcur, hthreads,
        countP_middle_false Phase.isDone l r (Phase.admitted tk) rfl]
    · show (ts
          ++ (l ++ Phase.holding tk idx :: r).filterMap Phase.heldIdx).Perm
        ((List.range n).map Int.ofNat)
      rw [filterMap_middle_some Phase.heldIdx l r (Phase.holding tk idx)
        idx rfl]
      have hcnt : (ts ++ (l.filterMap Phase.heldIdx
          ++ idx :: r.filterMap Phase.heldIdx)).Perm
          ((ts ++ [idx]) ++ (l.filterMap Phase.heldIdx
            ++ r.filterMap Phase.heldIdx)) := by
        apply List.perm_iff_count.mpr
        intro a
        simp [List.count_append, List.count_cons]
        omega
      refine hcnt.trans ?_
      rw [← htickets, ← hHeldOld]
      exact hperm
  | push l r tk idx hthreads =>
    have hHeldOld : s.held
        = l.filterMap Phase.heldIdx ++ idx :: r.filterMap Phase.heldIdx := by
      simp only [PoolState.held, hthreads]
      exact filterMap_middle_some Phase.heldIdx l r (Phase.holding tk idx)
        idx rfl
    have hIssEq : (l ++ Phase.pushed tk :: r).filterMap Phase.issuedTk
        = s.issued := by
      simp only [PoolState.issued, hthreads]
      exact filterMap_congr_middle Phase.issuedTk l r (Phase.pushed tk)
        (Phase.holding tk idx) rfl
    have hPastEq : (l ++ Phase.pushed tk :: r).filterMap Phase.pastTk
        = s.past := by
      simp only [PoolState.past, hthreads]
      exact filterMap_congr_middle Phase.pastTk l r (Phase.pushed tk)
        (Phase.holding tk idx) rfl
    refine ⟨?_, ?_, ?_, ?_, ?_⟩
    · show ∀ x ∈ (l ++ Phase.pushed tk :: r).filterMap Phase.issuedTk,
        x < s.ticket
      rw [hIssEq]
      exact hisslt
    · show ((l ++ Phase.pushed tk :: r).filterMap Phase.issuedTk).Nodup
      rw [hIssEq]
      exact hissnd
    · show ∀ x ∈ (l ++ Phase.pushed tk :: r).filterMap Phase.pastTk,
        (x : Int) < s.current
      rw [hPastEq]
      exact hpastlt
    · show s.current = (n : Int)
        + ((l ++ Phase.pushed tk :: r).countP Phase.isDone : Int)
      rw [countP_middle_false Phase.isDone l r (Phase.pushed tk) rfl,
        hcur, hthreads,
        countP_middle_false Phase.isDone l r (Phase.holding tk idx) rfl]
    · show ((s.tickets ++ [idx])
          ++ (l ++ Phase.pushed tk :: r).filterMap Phase.heldIdx).Perm
        ((List.range n).map Int.ofNat)
      rw [filterMap_middle_none Phase.heldIdx l r (Phase.pushed tk) rfl]
      have hcnt : ((s.tickets ++ [idx]) ++ (l.filterMap Phase.heldIdx
          ++ r.filterMap Phase.heldIdx)).Perm
          (s.tickets ++ (l.filterMap Phase.heldIdx
            ++ idx :: r.filterMap Phase.heldIdx)) := by
        apply List.perm_iff_count.mpr
        intro a
        simp [List.count_append, List.count_cons]
        omega
      refine hcnt.trans ?_
      rw [← hHeldOld]
      exact hperm
  | semRelease l r tk hthreads =>
    have hIssEq : (l ++ Phase.done tk :: r).filterMap Phase.issuedTk
        = s.issued := by
      simp only [PoolState.issued, hthreads]
      exact filterMap_congr_middle Phase.issuedTk l r (Phase.done tk)
        (Phase.pushed tk) rfl
    have hPastEq : (l ++ Phase.done tk :: r).filterMap Phase.pastTk
        = s.past := by
      simp only [PoolState.past, hthreads]
      exact filterMap_congr_middle Phase.pastTk l r (Phase.done tk)
        (Phase.pushed tk) rfl
    have hHeldEq : (l ++ Phase.done tk :: r).filterMap Phase.heldIdx
        = s.held := by
      simp only [PoolState.held, hthreads]
      exact filterMap_congr_middle Phase.heldIdx l r (Phase.done tk)
        (Phase.pushed tk) rfl
    refine ⟨?_, ?_, ?_, ?_, ?_⟩
    · show ∀ x ∈ (l ++ Phase.done tk :: r).filterMap Phase.issuedTk,
        x < s.ticket
      rw [hIssEq]
      exact hisslt
    · show ((l ++ Phase.done tk :: r).filterMap Phase.issuedTk).Nodup
      rw [hIssEq]
      exact hissnd
    · show ∀ x ∈ (l ++ Phase.done tk :: r).filterMap Phase.pastTk,
        (x : Int) < s.current + 1
      rw [hPastEq]
      intro x hx
      have := hpastlt x hx
      omega
    · show s.current + 1 = (n : Int)
        + ((l ++ Phase.done tk :: r).countP Phase.isDone : Int)
      rw [countP_middle_true Phase.isDone l r (Phase.done tk) rfl,
        hcur, hthreads,
        countP_middle_false Phase.isDone l r (Phase.pushed tk) rfl]
      push_cast
      ring
    · show (s.tickets
          ++ (l ++ Phase.done tk :: r).filterMap Phase.heldIdx).Perm
        ((List.range n).map Int.ofNat)
      rw [hHeldEq]
      exact hperm

theorem reachable_inv {n m : Nat} {s : PoolState} (h : Reachable n m s) :
    PoolInv n s := by
  induction h with
  | refl => exact poolInv_init n m
  | tail hr hstep ih => exact poolInv_step ih hstep

/-- C1: for every concurrency width `n ≥ 1` and every interleaving of pool
acquire/release steps by any number of requests, at most `n` requests are
past the ticket semaphore (admitted and not yet released) at any moment,
and whenever a request is about to pop the free-list (it is in the
`admitted` phase, between `semaphore.acquire()` and `tickets.pop_back()`)
the free-list is nonempty - the pop of `vsTrtData::acquire` never executes
on an empty list. -/
theorem pool_acquire_safe (n m : Nat) (hn : 1 ≤ n) (s : PoolState)
    (hreach : Reachable n m s) :
    s.threads.countP Phase.isInFlight ≤ n ∧
    (∀ tk : Nat, Phase.admitted tk ∈ s.threads → s.tickets ≠ []) := by
  have inv := reachable_inv hreach
  have hsub := past_sublist_issued s.threads
  have hnodup : s.past.Nodup := hsub.nodup inv.issued_nodup
  have hbound : s.past.length ≤ n + s.threads.countP Phase.isDone := by
    apply nodup_lt_length_le _ _ hnodup
    intro x hx
    have hx2 := inv.past_lt x hx
    rw [inv.current_eq] at hx2
    exact_mod_cast hx2
  have hplen : s.past.length
      = s.threads.countP Phase.isInFlight + s.threads.countP Phase.isDone :=
    past_length s.threads
  refine ⟨by omega, ?_⟩
  intro tk hmem
  have hhold := holding_lt_inflight hmem
  have hlen : s.tickets.length + s.held.length = n := by
    have h2 := inv.pool_perm.length_eq
    rw [List.length_append, List.length_map, List.length_range] at h2
    exact h2
  have hheld : s.held.length = s.threads.countP Phase.isHolding :=
    held_length s.threads
  have hpos : 0 < s.tickets.length := by omega
  exact List.ne_nil_of_length_pos hpos

/-- C2: FIFO fairness of the ticket semaphore.  In any reachable state, if
request A is still in the semaphore's wait loop with ticket `tkA` and some
request B with a later ticket `tkB > tkA` has been admitted past the
semaphore, then `tkA < current` already holds - A's admission test has
already been passed, so A is admitted no later than B, and no request can
be admitted ahead of an earlier-ticket request that is still blocked
(`current ≤ tkA` would force `tkB < tkA`). -/
theorem semaphore_fifo (n m : Nat) (s : PoolState)
    (hreach : Reachable n m s) (tkA tkB : Nat)
    (hA : Phase.waiting tkA ∈ s.threads) (hB : tkB ∈ s.past)
    (hArrival : tkA < tkB) : (tkA : Int) < s.current := by
  have inv := reachable_inv hreach
  have h2 := inv.past_lt tkB hB
  have h3 : (tkA : Int) < (tkB : Int) := by exact_mod_cast hArrival
  omega

/-- C3: pool integrity.  In any reachable state each index in `0..n-1` is
either in the free-list or checked out, never both; no index is checked out
by two requests at once; and when no request is in flight the free-list is
exactly a permutation of `{0, ..., n-1}` - no duplicates, no omissions. -/
theorem pool_integrity (n m : Nat) (s : PoolState)
    (hreach : Reachable n m s) :
    (∀ idx : Int, (idx ∈ s.tickets ∨ idx ∈ s.held)
        ↔ (0 ≤ idx ∧ idx < (n : Int))) ∧
    (∀ idx : Int, ¬ (idx ∈ s.tickets ∧ idx ∈ s.held)) ∧
    (∀ idx : Int, s.held.count idx ≤ 1) ∧
    (s.threads.countP Phase.isInFlight = 0 →
      s.tickets.Perm ((List.range n).map Int.ofNat)) := by
  have inv := reachable_inv hreach
  have hnd : (s.tickets ++ s.held).Nodup :=
    inv.pool_perm.nodup_iff.mpr (range_map_ofNat_nodup n)
  have hnd2 := List.nodup_append.mp hnd
  refine ⟨?_, ?_, ?_, ?_⟩
  · intro idx
    rw [← mem_range_map_ofNat n idx, ← inv.pool_perm.mem_iff,
      List.mem_append]
  · intro idx ⟨h1, h2⟩
    exact hnd2.2.2 h1 h2
  · intro idx
    exact List.nodup_iff_count_le_one.mp hnd2.2.1 idx
  · intro hflight
    have hh : s.threads.countP Phase.isHolding = 0 := by
      have := countP_holding_le_inflight s.threads
      omega
    have hlen : s.held.length = 0 := by
      show (s.threads.filterMap Phase.heldIdx).length = 0
      rw [held_length s.threads, hh]
    have hnil : s.held = [] := List.length_eq_zero.mp hlen
    have := inv.pool_perm
    rw [hnil, List.append_nil] at this
    exact this

/-! Concrete executions of the protocol: a full acquire/release round trip
through a one-slot pool, and a blocked second request behind an admitted
first one in the two-request scenario. -/

theorem step_pool_01 : Step (PoolState.init 1 1) poolS1 := by
  have h : poolS1 = { PoolState.init 1 1 with
      ticket := (PoolState.init 1 1).ticket + 1,
      threads := ([] : List Phase)
        ++ Phase.waiting (PoolState.init 1 1).ticket :: [] } := by decide
  rw [h]
  exact Step.startAcquire (PoolState.init 1 1) [] [] (by decide)

theorem step_pool_12 : Step poolS1 poolS2 := by
  have h : poolS2 = { poolS1 with
      threads := ([] : List Phase) ++ Phase.admitted 0 :: [] } := by decide
  rw [h]
  exact Step.grant poolS1 [] [] 0 (by decide) (by decide)

theorem step_pool_23 : Step poolS2 poolS3 := by
  have h : poolS3 = { poolS2 with
      tickets := ([] : List Int),
      threads := ([] : List Phase) ++ Phase.holding 0 0 :: [] } := by decide
  rw [h]
  exact Step.pop poolS2 [] [] 0 [] 0 (by decide) (by decide)

theorem step_pool_34 : Step poolS3 poolS4 := by
  have h : poolS4 = { poolS3 with
      tickets := poolS3.tickets ++ [0],
      threads := ([] : List Phase) ++ Phase.pushed 0 :: [] } := by decide
  rw [h]
  exact Step.push poolS3 [] [] 0 0 (by decide)

theorem step_pool_45 : Step poolS4 poolS5 := by
  have h : poolS5 = { poolS4 with
      current := poolS4.current + 1,
      threads := ([] : List Phase) ++ Phase.done 0 :: [] } := by decide
  rw [h]
  exact Step.semRelease poolS4 [] [] 0 (by decide)

theorem reach_poolS2 : Reachable 1 1 poolS2 :=
  Relation.ReflTransGen.tail
    (Relation.ReflTransGen.tail Relation.ReflTransGen.refl step_pool_01)
    step_pool_12

theorem reach_poolS5 : Reachable 1 1 poolS5 :=
  Relation.ReflTransGen.tail (Relation.ReflTransGen.tail
    (Relation.ReflTransGen.tail reach_poolS2 step_pool_23) step_pool_34)
    step_pool_45

theorem step_fifo_01 : Step (PoolState.init 2 2) fifoS1 := by
  have h : fifoS1 = { PoolState.init 2 2 with
      ticket := (PoolState.init 2 2).ticket + 1,
      threads := ([] : List Phase)
        ++ Phase.waiting (PoolState.init 2 2).ticket :: [Phase.idle] } := by
    decide
  rw [h]
  exact Step.startAcquire (PoolState.init 2 2) [] [Phase.idle] (by decide)

theorem step_fifo_12 : Step fifoS1 fifoS2 := by
  have h : fifoS2 = { fifoS1 with
      ticket := fifoS1.ticket + 1,
      threads := [Phase.waiting 0]
        ++ Phase.waiting fifoS1.ticket :: [] } := by decide
  rw [h]
  exact Step.startAcquire fifoS1 [Phase.waiting 0] [] (by decide)

theorem step_fifo_23 : Step fifoS2 fifoS3 := by
  have h : fifoS3 = { fifoS2 with
      threads := [Phase.waiting 0] ++ Phase.admitted 1 :: [] } := by decide
  rw [h]
  exact Step.grant fifoS2 [Phase.waiting 0] [] 1 (by decide) (by decide)

theorem reach_fifoS3 : Reachable 2 2 fifoS3 :=
  Relation.ReflTransGen.tail (Relation.ReflTransGen.tail
    (Relation.ReflTransGen.tail Relation.ReflTransGen.refl step_fifo_01)
    step_fifo_12) step_fifo_23

/-- Witness for C1: after one request of a one-slot pool is admitted, the
in-flight count is within the bound and the free-list is nonempty for its
pop. -/
theorem pool_acquire_safe_witness :
    poolS2.threads.countP Phase.isInFlight ≤ 1 ∧ poolS2.tickets ≠ [] := by
  have h := pool_acquire_safe 1 1 (by decide) poolS2 reach_poolS2
  exact ⟨h.1, h.2 0 (by decide)⟩

/-- Witness for C2: with `n = 2`, request A (ticket 0) still in the wait
loop and request B (ticket 1) already admitted, A's admission test is
already passed. -/
theorem semaphore_fifo_witness : ((0 : Nat) : Int) < fifoS3.current :=
  semaphore_fifo 2 2 fifoS3 reach_fifoS3 0 1 (by decide) (by decide)
    (by decide)

/-- Witness for C3: after a full acquire/release round trip with no request
in flight, the free-list is a permutation of `{0}`. -/
theorem pool_integrity_witness :
    poolS5.tickets.Perm ((List.range 1).map Int.ofNat) := by
  have h := pool_integrity 1 1 poolS5 reach_poolS5
  exact h.2.2.2 (by decide)
